import Mathlib

/-!
Verification of the video candidate selection and scoring pipeline of the
BlogAutoHub repository.  The Python sources `youtube_video_selector.py` and
`main.py` are shallowly embedded below: pure helpers become Lean functions on
`ℚ` (Python floats are modelled as exact rationals), stateful provider calls
become explicit inputs (the provider response is a parameter), and fallible
code returns `Option` or `Except` (a raised exception is an `Except.error`).
-/

/-! ## Duration parsing (`iso8601_duration_to_minutes`, selector lines 29-42)

The Python helper applies `re.match` with the pattern `PT(?:(\d+)H)?(?:(\d+)M)?(?:(\d+)S)?`.
Each optional group greedily takes a maximal digit run that must be followed by
its unit letter; if the regex does not match (the string does not start with
`PT`) the hour/minute/second variables keep their value `0` and the function
returns `0.0`.  For string inputs no exception can be raised inside the `try`
block (`re.match` on a `str` does not throw and `int` on a digit run cannot
fail), so the `except` branch that returns `None` is unreachable: the
embedding therefore always produces `some` value. -/

def takeDigits : List Char → List Char × List Char
  | [] => ([], [])
  | c :: cs =>
    if c.isDigit then
      let p := takeDigits cs
      (c :: p.1, p.2)
    else ([], c :: cs)

def digitsVal (l : List Char) : Nat :=
  l.foldl (fun acc c => acc * 10 + (c.toNat - 48)) 0

/-- One optional regex group `(?:(\d+)U)?`: a maximal digit run followed by the
unit character `u`; on failure the input position is unchanged. -/
def matchComponent (u : Char) (l : List Char) : Option Nat × List Char :=
  match takeDigits l with
  | ([], _) => (none, l)
  | (ds, rest) =>
    match rest with
    | [] => (none, l)
    | c :: rest2 => if c = u then (some (digitsVal ds), rest2) else (none, l)

def iso8601_duration_to_minutes (duration : String) : Option ℚ :=
  match duration.toList with
  | 'P' :: 'T' :: rest =>
    let ph := matchComponent 'H' rest
    let pm := matchComponent 'M' ph.2
    let ps := matchComponent 'S' pm.2
    some ((ph.1.getD 0 : ℚ) * 60 + (pm.1.getD 0 : ℚ) + (ps.1.getD 0 : ℚ) / 60)
  | _ => some 0

/-! ## Publish-timestamp parsing and age (`compute_video_age_weeks`, lines 44-50)

`datetime.strptime(published_at, "%Y-%m-%dT%H:%M:%SZ")` is embedded following
the CPython `_strptime` regular expressions: `%Y` is exactly four digits, and
the other fields are one- or two-digit alternations (`%m`: `1[0-2]|0[1-9]|[1-9]`,
`%d`: `3[01]|[12]\d|0[1-9]|[1-9]`, `%H`: `2[0-3]|[0-1]\d|\d`, `%M`: `[0-5]\d|\d`,
`%S`: `6[0-1]|[0-5]\d|\d`), with ordered alternation and backtracking; the whole
string must be consumed.  CPython compiles the format regex with `IGNORECASE`,
so the literal letters `T` and `Z` also match their lowercase forms (the other
literals, `-` and `:`, have no case).  The `datetime` constructor additionally rejects
year `0`, seconds `60`/`61` and out-of-range days; both a regex mismatch and a
constructor failure raise `ValueError`, which the source catches and turns
into the fallback value `52.0` weeks, so both are collapsed into `none` here. -/

structure ParsedTime where
  year : Nat
  month : Nat
  day : Nat
  hour : Nat
  minute : Nat
  second : Nat
deriving DecidableEq

def charVal (c : Char) : Nat := c.toNat - 48

/-- A one-or-two digit `strptime` field: the two-digit alternatives (accepted
values given by `ok2`) are tried first, then the one-digit alternatives
(`ok1`); `k` is the parse continuation, re-tried on backtracking. -/
def parse2or1 (ok2 ok1 : Nat → Bool) (k : Nat → List Char → Option ParsedTime)
    (l : List Char) : Option ParsedTime :=
  (match l with
   | a :: b :: rest =>
     if a.isDigit && b.isDigit && ok2 (10 * charVal a + charVal b) then
       k (10 * charVal a + charVal b) rest
     else none
   | _ => none) <|>
  (match l with
   | a :: rest => if a.isDigit && ok1 (charVal a) then k (charVal a) rest else none
   | [] => none)

def isLeap (y : Nat) : Bool := y % 4 == 0 && (y % 100 != 0 || y % 400 == 0)

def daysInMonth (y m : Nat) : Nat :=
  if m = 2 then (if isLeap y then 29 else 28)
  else if m = 4 ∨ m = 6 ∨ m = 9 ∨ m = 11 then 30
  else 31

/-- The validation performed by the `datetime` constructor on the regex
captures: `MINYEAR <= year`, real seconds only, day within the month. -/
def mkValidTime (y mo d h mi s : Nat) : Option ParsedTime :=
  if 1 ≤ y ∧ s ≤ 59 ∧ d ≤ daysInMonth y mo then some ⟨y, mo, d, h, mi, s⟩ else none

def parseSecondK (y mo d h mi : Nat) (s : Nat) (l : List Char) : Option ParsedTime :=
  match l with
  | [c] => if c = 'Z' ∨ c = 'z' then mkValidTime y mo d h mi s else none
  | _ => none

def parseSecond (y mo d h mi : Nat) (l : List Char) : Option ParsedTime :=
  parse2or1 (fun v => v ≤ 61) (fun _ => true) (parseSecondK y mo d h mi) l

def parseMinuteK (y mo d h : Nat) (mi : Nat) (l : List Char) : Option ParsedTime :=
  match l with
  | ':' :: rest => parseSecond y mo d h mi rest
  | _ => none

def parseMinute (y mo d h : Nat) (l : List Char) : Option ParsedTime :=
  parse2or1 (fun v => v ≤ 59) (fun _ => true) (parseMinuteK y mo d h) l

def parseHourK (y mo d : Nat) (h : Nat) (l : List Char) : Option ParsedTime :=
  match l with
  | ':' :: rest => parseMinute y mo d h rest
  | _ => none

def parseHour (y mo d : Nat) (l : List Char) : Option ParsedTime :=
  parse2or1 (fun v => v ≤ 23) (fun _ => true) (parseHourK y mo d) l

def parseDayK (y mo : Nat) (d : Nat) (l : List Char) : Option ParsedTime :=
  match l with
  | c :: rest => if c = 'T' ∨ c = 't' then parseHour y mo d rest else none
  | _ => none

def parseDay (y mo : Nat) (l : List Char) : Option ParsedTime :=
  parse2or1 (fun v => decide (1 ≤ v ∧ v ≤ 31)) (fun v => decide (1 ≤ v))
    (parseDayK y mo) l

def parseMonthK (y : Nat) (mo : Nat) (l : List Char) : Option ParsedTime :=
  match l with
  | '-' :: rest => parseDay y mo rest
  | _ => none

def parseMonth (y : Nat) (l : List Char) : Option ParsedTime :=
  parse2or1 (fun v => decide (1 ≤ v ∧ v ≤ 12)) (fun v => decide (1 ≤ v))
    (parseMonthK y) l

def parseTimestampZ (s : String) : Option ParsedTime :=
  match s.toList with
  | a :: b :: c :: d :: rest =>
    if a.isDigit && b.isDigit && c.isDigit && d.isDigit then
      match rest with
      | '-' :: rest2 =>
        parseMonth (digitsVal [a, b, c, d]) rest2
      | _ => none
    else none
  | _ => none

/-- Days since the Unix epoch of a civil date (proleptic Gregorian), the
arithmetic `datetime` subtraction is based on. -/
def daysFromCivil (y : Int) (m d : Nat) : Int :=
  let y2 : Int := if m ≤ 2 then y - 1 else y
  let era : Int := Int.fdiv y2 400
  let yoe : Int := y2 - era * 400
  let mp : Nat := (m + 9) % 12
  let doy : Nat := (153 * mp + 2) / 5 + (d - 1)
  let doe : Int := yoe * 365 + Int.fdiv yoe 4 - Int.fdiv yoe 100 + (doy : Int)
  era * 146097 + doe - 719468

def epochSeconds (t : ParsedTime) : Int :=
  daysFromCivil (t.year : Int) t.month t.day * 86400
    + (t.hour : Int) * 3600 + (t.minute : Int) * 60 + (t.second : Int)

/-- `compute_video_age_weeks`: `nowSec` stands for `datetime.now(timezone.utc)`
as seconds since the epoch.  `timedelta.days` floors towards minus infinity,
hence `Int.fdiv`.  An unparseable timestamp yields the fallback `52.0`. -/
def compute_video_age_weeks (nowSec : Int) (published_at : String) : ℚ :=
  match parseTimestampZ published_at with
  | none => 52
  | some t => ((Int.fdiv (nowSec - epochSeconds t) 86400 : Int) : ℚ) / 7

/-! ## Scoring (`video_score`, selector lines 52-61)

`APV = (AVD / VL) * 100` is computed by unguarded float division: Python
raises `ZeroDivisionError` when `VL == 0.0`, modelled as `none`. -/

def engagement_score (APV : ℚ) : ℚ := max 0 ((APV - 60) / 40)

def length_score (VL : ℚ) : ℚ :=
  if VL < 9 ∨ 17 < VL then 0 else max 0 (1 - (|VL - 12| / 5) * (3 / 10))

def age_score (VA_weeks : ℚ) : ℚ :=
  if VA_weeks < 6 then 0 else if VA_weeks ≤ 78 then 1 else 1 / 2

def video_score (AVD VL VA_weeks : ℚ) : Option ℚ :=
  if VL = 0 then none
  else some ((1 / 2) * engagement_score (AVD / VL * 100)
      + (3 / 10) * length_score VL + (1 / 5) * age_score VA_weeks)

/-! Spec-side scoring formulas, written from the claim text (for the
refinement statement of C1); note the absence of the `max 0` clamp in the
in-band length formula. -/

def claim_engagement_score (d avd : ℚ) : ℚ := max 0 ((avd / d * 100 - 60) / 40)

def claim_length_score (d : ℚ) : ℚ :=
  if d < 9 ∨ 17 < d then 0 else 1 - (|d - 12| / 5) * (3 / 10)

def claim_age_score (a : ℚ) : ℚ :=
  if a < 6 then 0 else if a ≤ 78 then 1 else 1 / 2

def claim_final_score (d avd a : ℚ) : ℚ :=
  (1 / 2) * claim_engagement_score d avd + (3 / 10) * claim_length_score d
    + (1 / 5) * claim_age_score a

/-! ## Candidate search (`search_videos`, selector lines 66-107)

The search provider is a function from the requested page size
(`min(50, max_results - len(videos))`) and the page token to a page; `none`
models an `HttpError`, on which the loop breaks with the videos collected so
far.  The `while len(videos) < max_results` loop adds at least one video per
iteration (an empty item list breaks), so `max_results + 1` structural steps
are an upper bound on its iterations; the fuel argument mirrors exactly that
termination measure. -/

structure SearchItem where
  videoId : String
  title : String
  description : String
  publishedAt : String
deriving DecidableEq

structure SearchPage where
  items : List SearchItem
  nextPageToken : Option String
deriving DecidableEq

structure VideoEntry where
  video_id : String
  title : String
  description : String
  published_at : String
deriving DecidableEq

def entryOfItem (i : SearchItem) : VideoEntry :=
  ⟨i.videoId, i.title, i.description, i.publishedAt⟩

def MAX_RESULTS : Nat := 10

def search_loop (provider : Nat → Option String → Option SearchPage)
    (max_results : Nat) : Nat → List VideoEntry → Option String → List VideoEntry
  | 0, videos, _ => videos
  | fuel + 1, videos, tok =>
    if max_results ≤ videos.length then videos
    else
      match provider (min 50 (max_results - videos.length)) tok with
      | none => videos
      | some page =>
        match page.items with
        | [] => videos
        | _ :: _ =>
          let videos2 := videos ++ page.items.map entryOfItem
          match page.nextPageToken with
          | none => videos2
          | some t =>
            if t = "" then videos2
            else search_loop provider max_results fuel videos2 (some t)

/-- `search_videos`: the boolean records whether the shortfall warning
(`len(videos) < max_results` after the loop) was printed. -/
def search_videos (provider : Nat → Option String → Option SearchPage)
    (max_results : Nat := MAX_RESULTS) : List VideoEntry × Bool :=
  let videos := search_loop provider max_results (max_results + 1) [] none
  (videos, decide (videos.length < max_results))

/-! Provider instances used in the claims about `search_videos`. -/

/-- Token scheme of the honest paged provider: the token records how many
items were already served, encoded as a string of that length. -/
def encodeTok (n : Nat) : String := String.mk (List.replicate n 'x')

def decodeTok : Option String → Nat
  | none => 0
  | some s => s.length

/-- An honest provider backed by a fixed supply list: each request serves up
to the requested number of remaining items and signals a next page exactly
when items remain. -/
def pagedProvider (supply : List SearchItem) (req : Nat) (tok : Option String) :
    Option SearchPage :=
  let off := decodeTok tok
  let items := (supply.drop off).take req
  some ⟨items,
    if off + items.length < supply.length then some (encodeTok (off + items.length))
    else none⟩

def sampleItem : SearchItem := ⟨"vid", "a title", "a description", "pub"⟩

/-- The provider of the pagination-termination scenario: 10 items per page,
no further pages signalled after 2 pages. -/
def twoPageProvider (_req : Nat) (tok : Option String) : Option SearchPage :=
  match tok with
  | none => some ⟨List.replicate 10 sampleItem, some "p2"⟩
  | some t =>
    if t = "p2" then some ⟨List.replicate 10 sampleItem, none⟩
    else some ⟨[], none⟩

/-! ## Detail enrichment (`get_video_details`, selector lines 109-145)

The provider response (`response.get("items", [])`) is the input; `none`
models an `HttpError`, on which the empty details dict is returned.  Python
stores entries in a dict keyed by id where later items overwrite earlier
ones; consing the later entry to the front with first-match `lookup` has the
same lookup semantics. -/

structure DetailItem where
  id : String
  duration : String
  publishedAt : String
  viewCount : Nat
  likeCount : Nat
deriving DecidableEq

structure Detail where
  VL : ℚ
  AVD : ℚ
  VA_weeks : ℚ
  view_count : Nat
  like_count : Nat
deriving DecidableEq

def detailsOfItems (nowSec : Int) : List DetailItem → List (String × Detail) →
    List (String × Detail)
  | [], acc => acc
  | item :: rest, acc =>
    match iso8601_duration_to_minutes item.duration with
    | none => detailsOfItems nowSec rest acc
    | some vl =>
      detailsOfItems nowSec rest
        ((item.id, ⟨vl, vl * (7 / 10), compute_video_age_weeks nowSec item.publishedAt,
          item.viewCount, item.likeCount⟩) :: acc)

def get_video_details (resp : Option (List DetailItem)) (nowSec : Int) :
    List (String × Detail) :=
  match resp with
  | none => []
  | some items => detailsOfItems nowSec items []

/-! ## Ranking (`rank_videos`, selector lines 150-175) -/

structure RankedVideo where
  video_id : String
  title : String
  description : String
  published_at : String
  VL : ℚ
  AVD : ℚ
  VA_weeks : ℚ
  view_count : Nat
  like_count : Nat
  final_score : ℚ
deriving DecidableEq

def mkRanked (v : VideoEntry) (d : Detail) (s : ℚ) : RankedVideo :=
  ⟨v.video_id, v.title, v.description, v.published_at,
    d.VL, d.AVD, d.VA_weeks, d.view_count, d.like_count, s⟩

/-- The final `sorted(filtered, key=lambda x: x["final_score"], reverse=True)`:
a stable descending sort on `final_score` alone. -/
def sortFinalDesc (l : List RankedVideo) : List RankedVideo :=
  l.insertionSort (fun a b => b.final_score ≤ a.final_score)

/-- The filtering loop of `rank_videos`: candidates without details are
skipped, a `ZeroDivisionError` raised by `video_score` aborts the whole call,
and qualifying candidates (`score >= 0.8`, age and duration in band) are
collected in input order. -/
def rank_filter (details : List (String × Detail)) :
    List VideoEntry → Except String (List RankedVideo)
  | [] => .ok []
  | v :: rest =>
    match details.lookup v.video_id with
    | none => rank_filter details rest
    | some d =>
      match video_score d.AVD d.VL d.VA_weeks with
      | none => .error "ZeroDivisionError"
      | some s =>
        if 4 / 5 ≤ s ∧ 6 ≤ d.VA_weeks ∧ d.VA_weeks ≤ 78 ∧ 9 ≤ d.VL ∧ d.VL ≤ 17 then
          Except.map (fun l => mkRanked v d s :: l) (rank_filter details rest)
        else rank_filter details rest

def rank_videos (resp : Option (List DetailItem)) (nowSec : Int)
    (videos : List VideoEntry) : Except String (List RankedVideo) :=
  match videos with
  | [] => .ok []
  | _ :: _ => Except.map sortFinalDesc (rank_filter (get_video_details resp nowSec) videos)

/-- `select_top_video`: search with the default `MAX_RESULTS`, rank, return
the head of the ranked list if any. -/
def select_top_video (provider : Nat → Option String → Option SearchPage)
    (resp : Option (List DetailItem)) (nowSec : Int) :
    Except String (Option RankedVideo) :=
  Except.map List.head? (rank_videos resp nowSec (search_videos provider).1)

/-! ## Used-video store (`main.py` lines 119-135 and 311-313)

After a successful post the orchestrator runs `USED_VIDEOS.append(vid)` and
`save_used_videos(USED_VIDEOS)`, which persists the JSON payload
`{"videos": videos}`; the persisted content is the plain list of ids. -/

def append_used_video (used : List String) (vid : String) : List String :=
  used ++ [vid]

/-! ## Qualified-video selection (`find_qualified_video`, main lines 281-295)

External collaborators of the orchestrator are gathered in `SelEnv`:
`search` gives the candidate list of each pass (`search_yt_videos` draws a
random keyword each time), `details` is `fetch_video_details` (`none` models
its `ValueError`, which propagates), `transcript` is `try_get_transcript_en`,
and `isEnglish` is the `langdetect` call inside `qualify_transcript`. -/

def countWordsAux : List Char → Bool → Nat
  | [], _ => 0
  | c :: rest, inWord =>
    if c.isWhitespace then countWordsAux rest false
    else (if inWord then 0 else 1) + countWordsAux rest true

/-- `len(t.split())`: the number of maximal non-whitespace runs. -/
def pyWordCount (s : String) : Nat := countWordsAux s.toList false

def qualify_transcript (isEnglish : String → Bool) (t : Option String)
    (min_words : Nat) : Bool :=
  match t with
  | none => false
  | some s =>
    if s.isEmpty then false
    else if !isEnglish s then false
    else decide (pyWordCount s ≥ max 200 (min_words / 2))

structure YTItem where
  videoId : String
deriving DecidableEq

structure SelEnv (M : Type) where
  search : Nat → List YTItem
  details : String → Option M
  transcript : String → Option String
  isEnglish : String → Bool

structure QualifiedVideo (M : Type) where
  video_id : String
  meta : M
  transcript : Option String

/-- The inner `for item in candidates` loop of `find_qualified_video`:
previously used ids are skipped before any detail fetch. -/
def scan_candidates {M : Type} (env : SelEnv M) (used : List String)
    (min_blog_len : Nat) : List YTItem → Except String (Option (QualifiedVideo M))
  | [] => .ok none
  | item :: rest =>
    if item.videoId ∈ used then scan_candidates env used min_blog_len rest
    else
      match env.details item.videoId with
      | none => .error "No video details found"
      | some meta =>
        let t := env.transcript item.videoId
        if qualify_transcript env.isEnglish t min_blog_len then
          .ok (some ⟨item.videoId, meta, t⟩)
        else scan_candidates env used min_blog_len rest

def find_qualified_video_go {M : Type} (env : SelEnv M) (used : List String)
    (min_blog_len : Nat) : Nat → Nat → Except String (QualifiedVideo M)
  | _, 0 => .error "No qualified videos found"
  | passIdx, remaining + 1 =>
    match scan_candidates env used min_blog_len (env.search passIdx) with
    | .error e => .error e
    | .ok (some q) => .ok q
    | .ok none => find_qualified_video_go env used min_blog_len (passIdx + 1) remaining

def find_qualified_video {M : Type} (env : SelEnv M) (used : List String)
    (min_blog_len : Nat) (max_pages : Nat := 3) : Except String (QualifiedVideo M) :=
  find_qualified_video_go env used min_blog_len 0 max_pages

/-! ## Basic bounds on the component scores -/

theorem length_score_nonneg (d : ℚ) : 0 ≤ length_score d := by
  rw [length_score]
  split
  · exact le_refl 0
  · exact le_max_left 0 _

theorem length_score_le_one (d : ℚ) : length_score d ≤ 1 := by
  rw [length_score]
  split
  · exact zero_le_one
  · refine max_le zero_le_one ?_
    nlinarith [abs_nonneg (d - 12)]

theorem age_score_nonneg (a : ℚ) : 0 ≤ age_score a := by
  rw [age_score]
  split
  · exact le_refl 0
  · split
    · exact zero_le_one
    · norm_num

theorem age_score_le_one (a : ℚ) : age_score a ≤ 1 := by
  rw [age_score]
  split
  · exact zero_le_one
  · split
    · exact le_refl 1
    · norm_num

theorem engagement_score_nonneg (x : ℚ) : 0 ≤ engagement_score x :=
  le_max_left 0 _

theorem engagement_score_le_one (x : ℚ) (h : x ≤ 100) : engagement_score x ≤ 1 := by
  rw [engagement_score]
  refine max_le zero_le_one ?_
  linarith

/-- On the whole domain the in-band clamp in the code, `max 0 (...)` is redundant
(the in-band expression is at least `7/10`), so `length_score` coincides with
the claim-side formula that omits the clamp. -/
theorem length_score_eq_claim (d : ℚ) : length_score d = claim_length_score d := by
  rw [length_score, claim_length_score]
  split
  · rfl
  · rename_i h
    push_neg at h
    have h5 : |d - 12| ≤ 5 := abs_le.mpr ⟨by linarith [h.1], by linarith [h.2]⟩
    refine max_eq_right ?_
    nlinarith [abs_nonneg (d - 12)]

/-- C1: for positive duration (and nonnegative view estimate and age) the
score returned by `video_score` is exactly the claimed weighted formula
`0.5*engagement + 0.3*length + 0.2*age` with the claimed component
definitions, and the example scenario `(12, 8.4, 20)` has components
`0.25`, `1.0`, `1.0` and final score `0.625`. -/
theorem c1_final_score_formula :
    (∀ d avd a : ℚ, 0 < d → 0 ≤ avd → 0 ≤ a →
      video_score avd d a = some (claim_final_score d avd a))
    ∧ claim_engagement_score 12 (8.4 : ℚ) = 1 / 4
    ∧ claim_length_score 12 = 1
    ∧ claim_age_score 20 = 1
    ∧ video_score (8.4 : ℚ) 12 20 = some (5 / 8) := by
  refine ⟨?_, by rw [claim_engagement_score]; norm_num,
    by rw [claim_length_score]; norm_num,
    by rw [claim_age_score]; norm_num,
    by rw [video_score, if_neg (by norm_num : (12 : ℚ) ≠ 0),
      engagement_score, length_score, age_score]; norm_num⟩
  intro d avd a hd _ _
  have hne : d ≠ 0 := ne_of_gt hd
  simp only [video_score, if_neg hne, claim_final_score, claim_engagement_score,
    engagement_score, claim_age_score, age_score, length_score_eq_claim]

/-- C1 witness: the formula theorem applied at the example scenario. -/
theorem c1_final_score_formula_witness :
    video_score (8.4 : ℚ) 12 20 = some (claim_final_score 12 (8.4 : ℚ) 20) :=
  c1_final_score_formula.1 12 (8.4 : ℚ) 20 (by norm_num) (by norm_num) (by norm_num)

/-- C4 (code bug evidence): the duration parser maps a non-matching string to
the numeric value `0` rather than to `none`, and in fact returns `some` value
on every string input, so the `if VL is None` skip in `get_video_details`
can never fire. -/
theorem c4_unparseable_duration_is_zero :
    iso8601_duration_to_minutes "not-a-duration" = some 0
    ∧ ∀ s : String, (iso8601_duration_to_minutes s).isSome = true := by
  refine ⟨by decide, ?_⟩
  intro s
  rw [iso8601_duration_to_minutes]
  split <;> rfl

/-- C5 counterexample: on an unparseable timestamp `compute_video_age_weeks`
does not produce an unknown-age outcome; it assigns the default age `52.0`
weeks, which moreover lies inside the eligible `6..78` age band. -/
theorem c5_counterexample :
    compute_video_age_weeks 0 "not-a-timestamp" = 52
    ∧ (6 : ℚ) ≤ 52 ∧ (52 : ℚ) ≤ 78 := by
  refine ⟨by decide, by norm_num, by norm_num⟩

/-- C5 (amended): every timestamp rejected by the `strptime` format yields
the fallback value `52.0` weeks (one year), not an unknown marker. -/
theorem c5_fallback_on_unparseable (nowSec : Int) (s : String)
    (h : parseTimestampZ s = none) : compute_video_age_weeks nowSec s = 52 := by
  rw [compute_video_age_weeks, h]

/-- C5 witness: the fallback theorem applied at a concrete bad timestamp. -/
theorem c5_fallback_on_unparseable_witness :
    compute_video_age_weeks 1700000000 "bad-date" = 52 :=
  c5_fallback_on_unparseable 1700000000 "bad-date" (by decide)

/-- C6 counterexample: the input `(durationMinutes, estimatedAvgViewMinutes,
ageWeeks) = (12, 24, 20)` satisfies all the claimed preconditions, yet the
engagement component is uncapped (`APV = 200`) and the final score is
`9/4 > 1`. -/
theorem c6_counterexample :
    (0 : ℚ) < 12 ∧ (0 : ℚ) ≤ 24 ∧ (0 : ℚ) ≤ 20
    ∧ video_score 24 12 20 = some (9 / 4) ∧ ¬((9 / 4 : ℚ) ≤ 1) := by
  refine ⟨by norm_num, by norm_num, by norm_num, ?_, by norm_num⟩
  rw [video_score, if_neg (by norm_num : (12 : ℚ) ≠ 0),
    engagement_score, length_score, age_score]
  norm_num

/-- C6 (amended): on the whole claimed domain (`durationMinutes > 0`,
`estimatedAvgViewMinutes >= 0`, `ageWeeks >= 0`) the final score is at least
`0`; under the additional bound `estimatedAvgViewMinutes <= durationMinutes`
(so that `APV <= 100`) it lies in `[0, 1]`. -/
theorem c6_score_in_unit_interval :
    (∀ d avd a : ℚ, 0 < d → 0 ≤ avd → 0 ≤ a →
      ∃ q, video_score avd d a = some q ∧ 0 ≤ q)
    ∧ (∀ d avd a : ℚ, 0 < d → 0 ≤ avd → avd ≤ d → 0 ≤ a →
      ∃ q, video_score avd d a = some q ∧ 0 ≤ q ∧ q ≤ 1) := by
  constructor
  · intro d avd a hd _ _
    have hne : d ≠ 0 := ne_of_gt hd
    refine ⟨_, by rw [video_score, if_neg hne], ?_⟩
    have h1 := engagement_score_nonneg (avd / d * 100)
    have h2 := length_score_nonneg d
    have h3 := age_score_nonneg a
    linarith
  · intro d avd a hd _h0 hle _ha
    have hne : d ≠ 0 := ne_of_gt hd
    refine ⟨_, by rw [video_score, if_neg hne], ?_, ?_⟩
    · have h1 := engagement_score_nonneg (avd / d * 100)
      have h2 := length_score_nonneg d
      have h3 := age_score_nonneg a
      linarith
    · have h1 : engagement_score (avd / d * 100) ≤ 1 := by
        refine engagement_score_le_one _ ?_
        have : avd / d ≤ 1 := (div_le_one hd).mpr hle
        linarith
      have h2 := length_score_le_one d
      have h3 := age_score_le_one a
      linarith

/-- C6 witness: the lower bound applied at `(12, 24, 20)` (where `APV = 200`
exceeds the cap) and the unit-interval bound applied at `(12, 6, 20)`. -/
theorem c6_score_in_unit_interval_witness :
    (∃ q, video_score 24 12 20 = some q ∧ 0 ≤ q)
    ∧ (∃ q, video_score 6 12 20 = some q ∧ 0 ≤ q ∧ q ≤ 1) :=
  ⟨c6_score_in_unit_interval.1 12 24 20 (by norm_num) (by norm_num) (by norm_num),
   c6_score_in_unit_interval.2 12 6 20 (by norm_num) (by norm_num) (by norm_num)
     (by norm_num)⟩

/-- C7 counterexample: at a zero duration `video_score` does not return a
score; the unguarded division raises (`none`), so the function is not total
at `durationMinutes = 0`. -/
theorem c7_counterexample : video_score 0 0 20 = none := by
  rw [video_score, if_pos rfl]

/-- C7 (amended): `video_score` has no `APV = 0` guard; it raises
`ZeroDivisionError` exactly at `durationMinutes = 0` and returns a score for
every nonzero duration. -/
theorem c7_no_zero_duration_guard :
    (∀ avd a : ℚ, video_score avd 0 a = none)
    ∧ (∀ avd d a : ℚ, d ≠ 0 → (video_score avd d a).isSome = true) := by
  constructor
  · intro avd a
    rw [video_score, if_pos rfl]
  · intro avd d a hd
    rw [video_score, if_neg hd]
    rfl

/-- C7 witness: the amended theorem applied at concrete inputs. -/
theorem c7_no_zero_duration_guard_witness :
    video_score 3 0 10 = none ∧ (video_score 3 4 10).isSome = true :=
  ⟨c7_no_zero_duration_guard.1 3 10,
   c7_no_zero_duration_guard.2 3 4 10 (by norm_num)⟩

/-- C9 counterexample: marking the same id twice appends it twice; the
persisted list then holds two records for that id, not exactly one. -/
theorem c9_counterexample :
    append_used_video (append_used_video [] "a") "a" = ["a", "a"]
    ∧ (append_used_video (append_used_video [] "a") "a").count "a" ≠ 1 := by
  refine ⟨rfl, by decide⟩

/-- C9 (amended): the used-video update is a plain list append with no
membership check, so marking the same id twice adds two entries: the
persisted list gains exactly two copies of the id. -/
theorem c9_double_mark_appends_twice (used : List String) (vid : String) :
    append_used_video (append_used_video used vid) vid = used ++ [vid, vid]
    ∧ (append_used_video (append_used_video used vid) vid).count vid
        = used.count vid + 2 := by
  constructor
  · simp [append_used_video]
  · simp [append_used_video, List.count_append]

/-! ## C3: the selection loop never returns a used id -/

theorem scan_candidates_not_used {M : Type} (env : SelEnv M) (used : List String)
    (mbl : Nat) : ∀ (items : List YTItem) (q : QualifiedVideo M),
    scan_candidates env used mbl items = .ok (some q) → q.video_id ∉ used := by
  intro items
  induction items with
  | nil =>
    intro q h
    simp [scan_candidates] at h
  | cons item rest ih =>
    intro q h
    rw [scan_candidates] at h
    by_cases hmem : item.videoId ∈ used
    · rw [if_pos hmem] at h
      exact ih q h
    · rw [if_neg hmem] at h
      cases hdet : env.details item.videoId with
      | none =>
        rw [hdet] at h
        exact Except.noConfusion h
      | some meta =>
        rw [hdet] at h
        dsimp only at h
        by_cases hq : qualify_transcript env.isEnglish (env.transcript item.videoId) mbl
        · rw [if_pos hq] at h
          cases h
          exact hmem
        · rw [if_neg hq] at h
          exact ih q h

theorem find_qualified_video_go_not_used {M : Type} (env : SelEnv M)
    (used : List String) (mbl : Nat) : ∀ (maxp passIdx : Nat)
    (q : QualifiedVideo M),
    find_qualified_video_go env used mbl passIdx maxp = .ok q →
    q.video_id ∉ used := by
  intro maxp
  induction maxp with
  | zero =>
    intro passIdx q h
    exact Except.noConfusion h
  | succ n ih =>
    intro passIdx q h
    rw [find_qualified_video_go] at h
    cases hscan : scan_candidates env used mbl (env.search passIdx) with
    | error e =>
      rw [hscan] at h
      exact Except.noConfusion h
    | ok o =>
      rw [hscan] at h
      cases o with
      | none => exact ih (passIdx + 1) q h
      | some q2 =>
        cases h
        exact scan_candidates_not_used env used mbl _ q hscan

/-- C3: whatever the providers return, whenever `find_qualified_video`
succeeds with a candidate, the id of that candidate is not in the used-video
history: ids in the exclude set are skipped before any further processing. -/
theorem c3_never_selects_used {M : Type} (env : SelEnv M) (used : List String)
    (min_blog_len max_pages : Nat) (q : QualifiedVideo M)
    (h : find_qualified_video env used min_blog_len max_pages = .ok q) :
    q.video_id ∉ used :=
  find_qualified_video_go_not_used env used min_blog_len max_pages 0 q h

/-! Concrete environment for the C3 witness: the first candidate is already
used, the second has details and a qualifying 200-word transcript. -/

def wTranscript : String := String.intercalate " " (List.replicate 200 "w")

def wEnv : SelEnv Unit where
  search := fun _ => [⟨"olda"⟩, ⟨"fresh"⟩]
  details := fun _ => some ()
  transcript := fun v => if v = "fresh" then some wTranscript else none
  isEnglish := fun _ => true

set_option maxRecDepth 8000 in
/-- C3 witness: the theorem applied to a run where the selection succeeds on
the second candidate while the first is excluded as used. -/
theorem c3_never_selects_used_witness : ("fresh" : String) ∉ ["olda"] :=
  c3_never_selects_used wEnv ["olda"] 0 3 ⟨"fresh", (), some wTranscript⟩ rfl

/-! ## C2 and C10: consequences of the fixed `AVD = VL * 0.7` proxy -/

theorem mem_of_lookup_eq_some {β : Type} :
    ∀ (l : List (String × β)) (k : String) (b : β),
    l.lookup k = some b → (k, b) ∈ l := by
  intro l
  induction l with
  | nil =>
    intro k b h
    simp [List.lookup] at h
  | cons p rest ih =>
    intro k b h
    obtain ⟨k1, b1⟩ := p
    rw [List.lookup] at h
    cases hbeq : k == k1 with
    | true =>
      rw [hbeq] at h
      cases h
      have : k = k1 := eq_of_beq hbeq
      subst this
      exact List.mem_cons_self _ _
    | false =>
      rw [hbeq] at h
      exact List.mem_cons_of_mem _ (ih k b h)

theorem detailsOfItems_avd_proxy (nowSec : Int) :
    ∀ (items : List DetailItem) (acc : List (String × Detail)),
    (∀ p ∈ acc, p.2.AVD = p.2.VL * (7 / 10)) →
    ∀ p ∈ detailsOfItems nowSec items acc, p.2.AVD = p.2.VL * (7 / 10) := by
  intro items
  induction items with
  | nil =>
    intro acc hacc p hp
    rw [detailsOfItems] at hp
    exact hacc p hp
  | cons item rest ih =>
    intro acc hacc p hp
    rw [detailsOfItems] at hp
    cases hiso : iso8601_duration_to_minutes item.duration with
    | none =>
      rw [hiso] at hp
      exact ih acc hacc p hp
    | some vl =>
      rw [hiso] at hp
      refine ih _ ?_ p hp
      intro p2 hp2
      rcases List.mem_cons.mp hp2 with h | h
      · subst h
        rfl
      · exact hacc p2 h

theorem detailsOfItems_vl_ne_zero (nowSec : Int) :
    ∀ (items : List DetailItem) (acc : List (String × Detail)),
    (∀ item ∈ items, iso8601_duration_to_minutes item.duration ≠ some 0) →
    (∀ p ∈ acc, p.2.VL ≠ 0) →
    ∀ p ∈ detailsOfItems nowSec items acc, p.2.VL ≠ 0 := by
  intro items
  induction items with
  | nil =>
    intro acc _ hacc p hp
    rw [detailsOfItems] at hp
    exact hacc p hp
  | cons item rest ih =>
    intro acc hitems hacc p hp
    rw [detailsOfItems] at hp
    cases hiso : iso8601_duration_to_minutes item.duration with
    | none =>
      rw [hiso] at hp
      exact ih acc (fun i hi => hitems i (List.mem_cons_of_mem _ hi)) hacc p hp
    | some vl =>
      rw [hiso] at hp
      refine ih _ (fun i hi => hitems i (List.mem_cons_of_mem _ hi)) ?_ p hp
      intro p2 hp2
      rcases List.mem_cons.mp hp2 with h | h
      · subst h
        show vl ≠ 0
        intro hc
        exact hitems item (List.mem_cons_self _ _) (by rw [hiso, hc])
      · exact hacc p2 h

/-- With the proxy `AVD = VL * 0.7` and a nonzero duration, `APV` is exactly
`70`, the engagement score is exactly `1/4`, and the final score is at most
`5/8`, strictly below the `0.8` threshold. -/
theorem video_score_proxy_lt (vl va : ℚ) (h : vl ≠ 0) :
    ∃ s, video_score (vl * (7 / 10)) vl va = some s ∧ s < 4 / 5 := by
  refine ⟨_, by rw [video_score, if_neg h], ?_⟩
  have happly : vl * (7 / 10) / vl = 7 / 10 := by
    rw [mul_comm, mul_div_assoc, div_self h, mul_one]
  have heng : engagement_score (vl * (7 / 10) / vl * 100) = 1 / 4 := by
    rw [engagement_score, happly]
    norm_num
  rw [heng]
  have h2 := length_score_le_one vl
  have h3 := age_score_le_one va
  linarith

theorem rank_filter_proxy_nil (details : List (String × Detail))
    (hd : ∀ p ∈ details, p.2.AVD = p.2.VL * (7 / 10) ∧ p.2.VL ≠ 0) :
    ∀ videos, rank_filter details videos = .ok [] := by
  intro videos
  induction videos with
  | nil => rfl
  | cons v rest ih =>
    rw [rank_filter]
    cases hlk : details.lookup v.video_id with
    | none => exact ih
    | some d =>
      obtain ⟨havd, hvl⟩ := hd (v.video_id, d) (mem_of_lookup_eq_some _ _ _ hlk)
      obtain ⟨s, hs, hlt⟩ := video_score_proxy_lt d.VL d.VA_weeks hvl
      have hscore : video_score d.AVD d.VL d.VA_weeks = some s := by
        rw [havd]
        exact hs
      simp only [hscore]
      rw [if_neg (fun hcon => absurd hcon.1 (not_le.mpr hlt))]
      exact ih

/-- Under the proxy enrichment, given only that no fetched item parses to a
zero duration, `rank_videos` returns the empty list on every input. -/
theorem rank_videos_proxy_nil (resp : Option (List DetailItem)) (nowSec : Int)
    (videos : List VideoEntry)
    (H : ∀ item ∈ resp.getD [], iso8601_duration_to_minutes item.duration ≠ some 0) :
    rank_videos resp nowSec videos = .ok [] := by
  cases videos with
  | nil => rfl
  | cons v rest =>
    rw [rank_videos]
    have hd : ∀ p ∈ get_video_details resp nowSec,
        p.2.AVD = p.2.VL * (7 / 10) ∧ p.2.VL ≠ 0 := by
      intro p hp
      cases resp with
      | none =>
        rw [get_video_details] at hp
        simp at hp
      | some items =>
        rw [get_video_details] at hp
        refine ⟨detailsOfItems_avd_proxy nowSec items [] (by simp) p hp, ?_⟩
        exact detailsOfItems_vl_ne_zero nowSec items [] (by simpa using H)
          (by simp) p hp
    rw [rank_filter_proxy_nil _ hd (v :: rest)]
    rfl

theorem iso_pt0s_eq_zero : iso8601_duration_to_minutes "PT0S" = some 0 := by
  have h0 : "PT0S".toList = ['P', 'T', '0', 'S'] := rfl
  simp only [iso8601_duration_to_minutes, h0]
  rw [show matchComponent 'H' ['0', 'S'] = (none, ['0', 'S']) from by decide]
  rw [show matchComponent 'M' ['0', 'S'] = (none, ['0', 'S']) from by decide]
  rw [show matchComponent 'S' ['0', 'S'] = (some 0, []) from by decide]
  norm_num

theorem iso_pt10m_eq_ten : iso8601_duration_to_minutes "PT10M" = some 10 := by
  have h0 : "PT10M".toList = ['P', 'T', '1', '0', 'M'] := rfl
  simp only [iso8601_duration_to_minutes, h0]
  rw [show matchComponent 'H' ['1', '0', 'M'] = (none, ['1', '0', 'M']) from by decide]
  rw [show matchComponent 'M' ['1', '0', 'M'] = (some 10, []) from by decide]
  rw [show matchComponent 'S' [] = (none, []) from by decide]
  norm_num

/-- C2 counterexample: a well-formed zero-length duration (`PT0S`) is
enriched with `VL = 0` (not skipped), so scoring divides by zero and
`rank_videos` raises instead of returning the empty list. -/
theorem c2_counterexample :
    rank_videos (some [⟨"v1", "PT0S", "ts", 0, 0⟩]) 0 [⟨"v1", "t", "d", "ts"⟩]
      = .error "ZeroDivisionError"
    ∧ rank_videos (some [⟨"v1", "PT0S", "ts", 0, 0⟩]) 0 [⟨"v1", "t", "d", "ts"⟩]
      ≠ .ok [] := by
  have h1 : rank_videos (some [⟨"v1", "PT0S", "ts", 0, 0⟩]) 0
      [⟨"v1", "t", "d", "ts"⟩] = .error "ZeroDivisionError" := by
    rw [rank_videos, get_video_details, detailsOfItems, iso_pt0s_eq_zero]
    dsimp only
    rw [detailsOfItems, rank_filter]
    dsimp only
    rw [List.lookup]
    simp only [beq_self_eq_true]
    dsimp only
    rw [video_score, if_pos rfl]
    rfl
  refine ⟨h1, ?_⟩
  intro hc
  rw [h1] at hc
  exact Except.noConfusion hc

/-- C2 (amended): every enriched candidate detail carries exactly
`AVD = VL * 0.7`; and provided no fetched item parses to a zero duration
(a zero duration instead makes scoring raise `ZeroDivisionError`, see the
counterexample), the resulting `APV = 70` engagement cap keeps every final
score at `5/8 < 0.8`, so `rank_videos` returns the empty list and
`select_top_video` returns no video, whatever the providers return. -/
theorem c2_proxy_forces_empty_selection :
    (∀ (resp : Option (List DetailItem)) (nowSec : Int) (p : String × Detail),
      p ∈ get_video_details resp nowSec → p.2.AVD = p.2.VL * (7 / 10))
    ∧ (∀ (resp : Option (List DetailItem)) (nowSec : Int) (videos : List VideoEntry),
      (∀ item ∈ resp.getD [], iso8601_duration_to_minutes item.duration ≠ some 0) →
      rank_videos resp nowSec videos = .ok [])
    ∧ (∀ (provider : Nat → Option String → Option SearchPage)
        (resp : Option (List DetailItem)) (nowSec : Int),
      (∀ item ∈ resp.getD [], iso8601_duration_to_minutes item.duration ≠ some 0) →
      select_top_video provider resp nowSec = .ok none) := by
  refine ⟨?_, fun resp nowSec videos H => rank_videos_proxy_nil resp nowSec videos H, ?_⟩
  · intro resp nowSec p hp
    cases resp with
    | none =>
      rw [get_video_details] at hp
      simp at hp
    | some items =>
      rw [get_video_details] at hp
      exact detailsOfItems_avd_proxy nowSec items [] (by simp) p hp
  · intro provider resp nowSec H
    rw [select_top_video, rank_videos_proxy_nil resp nowSec _ H]
    rfl

def witDetailItemC2 : DetailItem := ⟨"v1", "PT10M", "ts", 3, 1⟩

theorem witDetailItemC2_duration_ne_zero :
    ∀ item ∈ (some [witDetailItemC2]).getD [],
      iso8601_duration_to_minutes item.duration ≠ some 0 := by
  intro item hitem
  simp only [Option.getD, List.mem_singleton] at hitem
  subst hitem
  rw [show witDetailItemC2.duration = "PT10M" from rfl, iso_pt10m_eq_ten]
  intro hc
  have h10 := Option.some.inj hc
  norm_num at h10

/-- C2 witness: the amended theorem applied at a concrete ten-minute
candidate and a concrete always-failing search provider. -/
theorem c2_proxy_forces_empty_selection_witness :
    rank_videos (some [witDetailItemC2]) 0 [⟨"v1", "t", "d", "ts"⟩] = .ok []
    ∧ select_top_video (fun _ _ => none) (some [witDetailItemC2]) 0 = .ok none :=
  ⟨c2_proxy_forces_empty_selection.2.1 (some [witDetailItemC2]) 0
      [⟨"v1", "t", "d", "ts"⟩] witDetailItemC2_duration_ne_zero,
   c2_proxy_forces_empty_selection.2.2 (fun _ _ => none) (some [witDetailItemC2]) 0
      witDetailItemC2_duration_ne_zero⟩

/-- C10 counterexample: an unparseable duration string is parsed as `0`
minutes (see C4), the candidate is enriched with `VL = 0`, and `rank_videos`
raises a division error instead of returning the sorted qualifying list. -/
theorem c10_counterexample :
    rank_videos (some [⟨"w1", "xyz", "ts2", 5, 0⟩]) 0 [⟨"w1", "t", "d", "ts2"⟩]
      = .error "ZeroDivisionError"
    ∧ rank_videos (some [⟨"w1", "xyz", "ts2", 5, 0⟩]) 0 [⟨"w1", "t", "d", "ts2"⟩]
      ≠ .ok [] := by
  have h1 : rank_videos (some [⟨"w1", "xyz", "ts2", 5, 0⟩]) 0
      [⟨"w1", "t", "d", "ts2"⟩] = .error "ZeroDivisionError" := by
    rw [rank_videos, get_video_details, detailsOfItems,
      show iso8601_duration_to_minutes "xyz" = some 0 from by decide]
    dsimp only
    rw [detailsOfItems, rank_filter]
    dsimp only
    rw [List.lookup]
    simp only [beq_self_eq_true]
    dsimp only
    rw [video_score, if_pos rfl]
    rfl
  refine ⟨h1, ?_⟩
  intro hc
  rw [h1] at hc
  exact Except.noConfusion hc

/-! Two qualifying-shaped candidates with equal final scores: the claimed
viewCount and id tie-breaks would order `tieB` first, but the implemented
sort keeps the input order. -/

def tieA : RankedVideo := ⟨"z", "t", "d", "p", 10, 7, 20, 5, 0, 9 / 10⟩

def tieB : RankedVideo := ⟨"a", "t", "d", "p", 10, 7, 20, 500, 0, 9 / 10⟩

/-- C10 (amended): `rank_videos` sorts by `final_score` alone — the sort is a
permutation, descending in `final_score`, and on a tie it keeps input order
even when the claimed viewCount/id tie-breaks would reorder; moreover, under
the `AVD = 0.7 * VL` enrichment with no zero parsed duration, the qualifying
set is always empty and the returned list is `[]`. -/
theorem c10_rank_sort_determinism :
    (∀ l : List RankedVideo, List.Perm (sortFinalDesc l) l)
    ∧ (∀ l : List RankedVideo,
        List.Sorted (fun a b : RankedVideo => b.final_score ≤ a.final_score)
          (sortFinalDesc l))
    ∧ (tieA.final_score = tieB.final_score ∧ tieA.view_count < tieB.view_count
        ∧ tieA.video_id = "z" ∧ tieB.video_id = "a"
        ∧ sortFinalDesc [tieA, tieB] = [tieA, tieB])
    ∧ (∀ (resp : Option (List DetailItem)) (nowSec : Int) (videos : List VideoEntry),
        (∀ item ∈ resp.getD [], iso8601_duration_to_minutes item.duration ≠ some 0) →
        rank_videos resp nowSec videos = .ok []) := by
  refine ⟨?_, ?_, ⟨rfl, by decide, rfl, rfl, ?_⟩,
    fun resp nowSec videos H => rank_videos_proxy_nil resp nowSec videos H⟩
  · intro l
    exact List.perm_insertionSort _ l
  · intro l
    haveI : IsTotal RankedVideo (fun a b => b.final_score ≤ a.final_score) :=
      ⟨fun a b => le_total b.final_score a.final_score⟩
    haveI : IsTrans RankedVideo (fun a b => b.final_score ≤ a.final_score) :=
      ⟨fun _ _ _ hab hbc => le_trans hbc hab⟩
    exact List.sorted_insertionSort _ l
  · simp only [sortFinalDesc, List.insertionSort, List.orderedInsert]
    have hle : tieB.final_score ≤ tieA.final_score := le_of_eq rfl
    rw [if_pos hle]

theorem iso_pt12m_eq_twelve : iso8601_duration_to_minutes "PT12M" = some 12 := by
  have h0 : "PT12M".toList = ['P', 'T', '1', '2', 'M'] := rfl
  simp only [iso8601_duration_to_minutes, h0]
  rw [show matchComponent 'H' ['1', '2', 'M'] = (none, ['1', '2', 'M']) from by decide]
  rw [show matchComponent 'M' ['1', '2', 'M'] = (some 12, []) from by decide]
  rw [show matchComponent 'S' [] = (none, []) from by decide]
  norm_num

def witDetailItemC10 : DetailItem := ⟨"q1", "PT12M", "ts3", 2, 2⟩

/-- C10 witness: the amended theorem applied at a concrete twelve-minute
candidate, where the ranked output is the empty list. -/
theorem c10_rank_sort_determinism_witness :
    rank_videos (some [witDetailItemC10]) 5 [⟨"q1", "t", "d", "ts3"⟩] = .ok [] :=
  c10_rank_sort_determinism.2.2.2 (some [witDetailItemC10]) 5
    [⟨"q1", "t", "d", "ts3"⟩]
    (by
      intro item hitem
      simp only [Option.getD, List.mem_singleton] at hitem
      subst hitem
      rw [show witDetailItemC10.duration = "PT12M" from rfl, iso_pt12m_eq_twelve]
      intro hc
      have h12 := Option.some.inj hc
      norm_num at h12)

/-! ## C8: pagination in `search_videos` -/

theorem encodeTok_length (n : Nat) : (encodeTok n).length = n := by
  simp [encodeTok, String.length]

theorem decodeTok_encodeTok (n : Nat) : decodeTok (some (encodeTok n)) = n := by
  rw [decodeTok, encodeTok_length]

theorem encodeTok_ne_empty (n : Nat) (h : n ≠ 0) : encodeTok n ≠ "" := by
  intro hc
  have hlen := congrArg String.length hc
  rw [encodeTok_length] at hlen
  have h0 : ("" : String).length = 0 := rfl
  omega

/-- Invariant of the honest provider loop: starting from `videos` collected
items, a token recording exactly that offset, and enough fuel, the loop ends
with `max videos.length (min max_results supply.length)` items. -/
theorem search_loop_paged (supply : List SearchItem) (max_results : Nat) :
    ∀ (fuel : Nat) (videos : List VideoEntry) (tok : Option String),
      decodeTok tok = videos.length → videos.length ≤ supply.length →
      max_results - videos.length < fuel →
      (search_loop (pagedProvider supply) max_results fuel videos tok).length
        = max videos.length (min max_results supply.length) := by
  intro fuel
  induction fuel with
  | zero =>
    intro videos tok _ _ hf
    omega
  | succ n ih =>
    intro videos tok htok hle hf
    rw [search_loop]
    by_cases hstop : max_results ≤ videos.length
    · rw [if_pos hstop]
      omega
    · rw [if_neg hstop]
      simp only [pagedProvider, htok]
      have hilen : ((supply.drop videos.length).take
          (min 50 (max_results - videos.length))).length
          = min (min 50 (max_results - videos.length))
              (supply.length - videos.length) := by
        rw [List.length_take, List.length_drop]
      cases hitems : (supply.drop videos.length).take
          (min 50 (max_results - videos.length)) with
      | nil =>
        rw [hitems] at hilen
        rw [List.length_nil] at hilen
        dsimp only
        omega
      | cons i is =>
        rw [hitems] at hilen
        by_cases hmore : videos.length + (i :: is).length < supply.length
        · rw [if_pos hmore]
          dsimp only
          have hne : encodeTok (videos.length + (i :: is).length) ≠ "" := by
            refine encodeTok_ne_empty _ ?_
            simp
          rw [if_neg hne]
          rw [ih (videos ++ (i :: is).map entryOfItem)
            (some (encodeTok (videos.length + (i :: is).length)))
            (by rw [decodeTok_encodeTok, List.length_append, List.length_map])
            (by rw [List.length_append, List.length_map]; omega)
            (by rw [List.length_append, List.length_map]
                simp only [List.length_cons] at hilen ⊢
                omega)]
          rw [List.length_append, List.length_map]
          simp only [List.length_cons] at hilen hmore ⊢
          omega
        · rw [if_neg hmore]
          dsimp only
          rw [List.length_append, List.length_map]
          simp only [List.length_cons] at hilen hmore ⊢
          omega

/-- C8: `search_videos` is total, and against the honest paged provider it
returns exactly `min maxResults supply` candidates; in the concrete
10-items-per-page, 2-page scenario, `search(keyword, 30)` returns exactly 20
candidates with the shortfall warning set. -/
theorem c8_pagination_termination :
    (∀ (supply : List SearchItem) (max_results : Nat),
      (search_videos (pagedProvider supply) max_results).1.length
        = min max_results supply.length)
    ∧ (search_videos twoPageProvider 30).1.length = 20
    ∧ (search_videos twoPageProvider 30).2 = true := by
  refine ⟨?_, by decide, by decide⟩
  intro supply max_results
  have h := search_loop_paged supply max_results (max_results + 1) [] none
    rfl (by simp) (by omega)
  rw [search_videos]
  simpa using h
